import Mathlib

/-!
# Verification of the movie-recommender similarity engine

Shallow embedding of the content-based recommender:

* `train_recommender.py` — feature construction (`clean_genres`, `clean_title`,
  `combined_features`).
* `recommender_utils.py` — serving-time state (`indices`, `tfidf_matrix`) and
  `get_recommendations`.

Numeric model: the Python code computes tf-idf vectors and cosine similarities in
floating point.  Here vectors are dense lists of exact rationals over the fitted
vocabulary.  Rational arithmetic is written with `Rat.divInt` on numerators and
denominators (`qmul`, `qadd`, `qdiv`) so that every definition evaluates inside the
kernel; the bridge lemmas `qmul_eq`, `qadd_eq`, `qdiv_eq` identify these with the
field operations of `ℚ`.
-/

/-- Python str.lower(): character-wise lowercasing. -/
def lowerStr (s : String) : String := ⟨s.data.map Char.toLower⟩

/-- Multiplication on `ℚ` written via `Rat.divInt` (kernel-computable). -/
def qmul (a b : ℚ) : ℚ := Rat.divInt (a.num * b.num) (a.den * b.den)

/-- Addition on `ℚ` written via `Rat.divInt` (kernel-computable). -/
def qadd (a b : ℚ) : ℚ := Rat.divInt (a.num * b.den + b.num * a.den) (a.den * b.den)

/-- Division on `ℚ` written via `Rat.divInt` (kernel-computable); division by zero
yields zero, as for `ℚ`. -/
def qdiv (a b : ℚ) : ℚ := Rat.divInt (a.num * b.den) (a.den * b.num)

/-- Recognizer for the six characters of a parenthesized 4-digit year group, the
regex `\(\d{4}\)` of train_recommender.py. -/
def isYearGroup (o c1 c2 c3 c4 cl : Char) : Bool :=
  o == '(' && c1.isDigit && c2.isDigit && c3.isDigit && c4.isDigit && cl == ')'

/-- Scanner for `str.replace(r'\(\d{4}\)', '', regex=True)`: the current position
holds character `c` followed by the remaining characters.  If a year group starts
at `c` it is dropped and scanning resumes after it; otherwise `c` is kept and
scanning moves one character right. -/
def stripYearsAt (c : Char) : List Char → List Char
  | c1 :: c2 :: c3 :: c4 :: c5 :: rest2 =>
    if isYearGroup c c1 c2 c3 c4 c5 then
      match rest2 with
      | [] => []
      | d :: rest3 => stripYearsAt d rest3
    else c :: stripYearsAt c1 (c2 :: c3 :: c4 :: c5 :: rest2)
  | rest =>
    c :: (match rest with
      | [] => []
      | d :: rest3 => stripYearsAt d rest3)

/-- Model of `str.replace(r'\(\d{4}\)', '', regex=True)` from
train_recommender.py line 14: remove every non-overlapping match of the pattern,
scanning left to right. -/
def stripYears : List Char → List Char
  | [] => []
  | c :: rest => stripYearsAt c rest

/-- Model of `movies['genres'].fillna('')` (train_recommender.py line 11): a missing
genre cell becomes the empty string. -/
def fillnaGenres (g : Option String) : String := g.getD ""

/-- Model of `movies['genres'].str.replace('|', ' ', regex=False)`
(train_recommender.py line 12), applied after `fillna('')`. -/
def clean_genres (g : Option String) : String :=
  ⟨(fillnaGenres g).data.map fun c => if c = '|' then ' ' else c⟩

/-- Model of train_recommender.py line 14: year groups removed everywhere, then
lowercased. -/
def clean_title (t : String) : String := lowerStr ⟨stripYears t.data⟩

/-- Model of train_recommender.py line 17:
`movies['combined_features'] = movies['clean_title'] + ' ' + movies['clean_genres']`. -/
def combined_features (t : String) (g : Option String) : String :=
  clean_title t ++ " " ++ clean_genres g

/-- One row of the persisted movies table: the raw title, the genres column after
`fillna('')`, and the `combined_features` column computed at training time. -/
structure Movie where
  title : String
  genres : String
  combinedFeatures : String
deriving DecidableEq

instance : Inhabited Movie := ⟨⟨"", "", ""⟩⟩

/-- Build a catalog row exactly as train_recommender.py builds its columns. -/
def mkMovie (t : String) (g : Option String) : Movie :=
  ⟨t, fillnaGenres g, combined_features t g⟩

/-- The persisted fitted vectorizer artifact (`tfidf.pkl`): the vocabulary in column
order paired with each term's idf weight, plus (as model metadata used only to state
artifact-provenance claims) the feature corpus the vectorizer was fit against.
The serving code never reads `fittedCorpus`. -/
structure VectorSpace where
  vocab : List (String × ℚ)
  fittedCorpus : List String

/-- Split a character list into space-separated chunks (model of the tokenizer's
word splitting for the feature strings considered here, which contain no
intra-token punctuation). -/
def splitChunks (cur : List Char) : List Char → List (List Char)
  | [] => [cur.reverse]
  | c :: cs => if c = ' ' then cur.reverse :: splitChunks [] cs else splitChunks (c :: cur) cs

/-- Model of the fitted `TfidfVectorizer`'s tokenization: lowercase, split on
whitespace, keep tokens of at least two characters (the default token pattern).
Stop-word removal needs no separate step here: stop words never enter the fitted
vocabulary, and `transform` ignores every token outside the vocabulary. -/
def tokenize (s : String) : List String :=
  ((splitChunks [] (lowerStr s).data).map fun cs => (⟨cs⟩ : String)).filter
    fun w => 2 ≤ w.length

/-- Model of `tfidf.transform` on one document: for each vocabulary column, the raw
term count in the document times the term's idf weight.  Tokens absent from the
vocabulary contribute nothing.  The L2 row normalization that sklearn applies here
is deferred to `cosine_similarity` (cosine is scale-invariant, so the composition
is unchanged). -/
def transform (vs : VectorSpace) (doc : String) : List ℚ :=
  vs.vocab.map fun tw => qmul (((tokenize doc).count tw.1 : ℕ) : ℚ) tw.2

/-- The serving-time state loaded at the top of recommender_utils.py: the movies
table and the fitted vectorizer. -/
structure Engine where
  movies : List Movie
  tfidf : VectorSpace

/-- recommender_utils.py line 22:
`tfidf_matrix = tfidf.transform(movies["combined_features"])`. -/
def tfidf_matrix (e : Engine) : List (List ℚ) :=
  e.movies.map fun m => transform e.tfidf m.combinedFeatures

/-- recommender_utils.py line 19:
`indices = pd.Series(movies.index, index=movies["title"].str.lower())`, used via
`movie_title in indices` / `indices[movie_title]`.  With duplicate lowercased
titles the downstream `[0]` row selection makes the first match effective. -/
def indices (movies : List Movie) (key : String) : Option ℕ :=
  (movies.enum.find? fun p => lowerStr p.2.title == key).map Prod.fst

/-- Dot product of two dense vectors. -/
def dot (v w : List ℚ) : ℚ := (List.zipWith qmul v w).foldr qadd 0

/-- Largest `k ≤ bound` with `k * k ≤ n`. -/
def natSqrtBelow (n : ℕ) : ℕ → ℕ
  | 0 => 0
  | k + 1 => if (k + 1) * (k + 1) ≤ n then k + 1 else natSqrtBelow n k

/-- Exact square root on `ℚ`: the rational `r ≥ 0` with `r * r = q` when one
exists, else `0`.  Concrete corpora in this file are chosen with perfect-square
vector norms, where this is the true square root; every general theorem below is
independent of the value returned in the inexact case (it is only reached with a
zero dot product in the numerator). -/
def ratSqrt (q : ℚ) : ℚ :=
  let a := natSqrtBelow q.num.toNat q.num.toNat
  let b := natSqrtBelow q.den q.den
  if a * a = q.num.toNat ∧ b * b = q.den then Rat.divInt a b else 0

/-- The normalization factor sklearn uses for one row: the L2 norm, with zero
norms replaced by 1 (`sklearn.preprocessing.normalize` convention, so the zero
vector stays zero instead of producing NaN). -/
def normFactor (v : List ℚ) : ℚ := if dot v v = 0 then 1 else ratSqrt (dot v v)

/-- Model of `sklearn.metrics.pairwise.cosine_similarity` on a pair of rows:
the dot product of the two normalized vectors. -/
def cosine_similarity (v w : List ℚ) : ℚ :=
  qdiv (dot v w) (qmul (normFactor v) (normFactor w))

/-- recommender_utils.py line 37: the similarity of the query row `q` against every
corpus row, in row order (`cosine_similarity(tfidf_matrix[idx], tfidf_matrix)[0]`). -/
def simScoresFor (e : Engine) (q : ℕ) : List ℚ :=
  (tfidf_matrix e).map fun row => cosine_similarity ((tfidf_matrix e).getD q []) row

/-- Insert a `(row id, score)` pair into a descending-sorted list, before the first
entry whose score is not strictly greater: the insertion step of a stable
descending sort. -/
def insertDesc (p : ℕ × ℚ) : List (ℕ × ℚ) → List (ℕ × ℚ)
  | [] => [p]
  | q :: rest => if p.2 < q.2 then q :: insertDesc p rest else p :: q :: rest

/-- Model of Python's `sorted(..., key=lambda x: x[1], reverse=True)`
(recommender_utils.py line 41): the stable descending sort by score.  CPython's
sort is documented to be stable, and `reverse=True` preserves the original order
of entries that compare equal. -/
def sortDesc : List (ℕ × ℚ) → List (ℕ × ℚ)
  | [] => []
  | p :: rest => insertDesc p (sortDesc rest)

/-- recommender_utils.py lines 40-41: `list(enumerate(sim_scores))` sorted by score
descending, stably. -/
def rankedPairs (e : Engine) (q : ℕ) : List (ℕ × ℚ) :=
  sortDesc (simScoresFor e q).enum

/-- recommender_utils.py lines 29-45: resolve the lowercased title, rank all rows,
then `sim_scores[1 : n + 1]` and extraction of the row ids. -/
def recommendedIndices (e : Engine) (t : String) (n : ℕ) : List ℕ :=
  match indices e.movies (lowerStr t) with
  | none => []
  | some q => (((rankedPairs e q).drop 1).take n).map Prod.fst

/-- recommender_utils.py `get_recommendations`: the rows
`movies.iloc[movie_indices][["title", "genres"]]` as (title, genres) pairs, in
ranked order; the unresolved-title branch returns the empty table. -/
def get_recommendations (e : Engine) (t : String) (n : ℕ) : List (String × String) :=
  (recommendedIndices e t n).map fun i =>
    ((e.movies.getD i default).title, (e.movies.getD i default).genres)

/-- The order the ranking step establishes: strictly greater score, or equal score
and strictly smaller row id (descending score with the stable tie-break). -/
def RankOrder (a b : ℕ × ℚ) : Prop := b.2 < a.2 ∨ (a.2 = b.2 ∧ a.1 < b.1)

/-- Recognizer for a six-character list that is exactly a parenthesized 4-digit
year group. -/
def isYearWindow : List Char → Bool
  | [o, c1, c2, c3, c4, cl] => isYearGroup o c1 c2 c3 c4 cl
  | _ => false

/-- Modelled from the spec (claim C8 wording): strip a trailing parenthesized
4-digit year token if present — and only a trailing one.  Refinement comparator
for the original claim; the source removes such groups everywhere. -/
def stripTrailingYear (t : String) : String :=
  if isYearWindow (t.data.drop (t.data.length - 6)) then ⟨t.data.take (t.data.length - 6)⟩
  else t

/-- Modelled from the spec (claim C8 wording): feature text built with the
trailing-only year strip, then lowercasing, delimiter replacement and
concatenation as the claim states them. -/
def featureTextClaimC8 (t : String) (g : Option String) : String :=
  lowerStr (stripTrailingYear t) ++ " " ++ clean_genres g

/-- The amended feature construction: remove every six-character window
`( d d d d )` anywhere in the title, scanning left to right — stated as a direct
one-level recursion on the six-character window, independent of the two-level
scanner `stripYearsAt` used to model the source. -/
def stripYearsAmended : List Char → List Char
  | o :: c1 :: c2 :: c3 :: c4 :: cl :: rest =>
    if isYearGroup o c1 c2 c3 c4 cl then stripYearsAmended rest
    else o :: stripYearsAmended (c1 :: c2 :: c3 :: c4 :: cl :: rest)
  | c :: rest => c :: stripYearsAmended rest
  | [] => []
termination_by l => l.length
decreasing_by
  · simp; omega
  · simp
  · simp

/-- Feature text as described by the amended claim C8: every parenthesized 4-digit
group removed from the title (not only a trailing one), the result lowercased,
the genre delimiter replaced by spaces (null genres as the empty string), and the
two parts joined by a single space character. -/
def featureTextAmended (t : String) (g : Option String) : String :=
  lowerStr ⟨stripYearsAmended t.data⟩ ++ " " ++ clean_genres g

/-- Toy catalog echoing the spec's concrete scenario (three movies, shared
"Children" token between the first two). -/
def moviesTS : List Movie :=
  [mkMovie "Toy Story (1995)" (some "Animation|Children|Comedy"),
   mkMovie "Jumanji (1995)" (some "Adventure|Children|Fantasy"),
   mkMovie "Heat (1995)" (some "Action|Crime|Thriller")]

/-- Engine over `moviesTS`; its vectorizer was fit on exactly this corpus. -/
def engineTS : Engine :=
  ⟨moviesTS,
   ⟨[("toy", 1), ("story", 1), ("animation", 1), ("children", 1), ("comedy", 1),
     ("jumanji", 1), ("adventure", 1), ("fantasy", 1), ("heat", 1), ("action", 1),
     ("crime", 1), ("thriller", 1)],
    moviesTS.map fun m => m.combinedFeatures⟩⟩

/-- Corpus with two feature-identical rows (rows 0 and 1: same cleaned title and
genres, only the year differs and years are stripped) and one unrelated row.
Weights are chosen so every vector norm is a perfect square (norm² = 25). -/
def moviesC1 : List Movie :=
  [mkMovie "AA (1999)" (some "Action"), mkMovie "AA (2000)" (some "Action"),
   mkMovie "BB (1999)" (some "Drama")]

/-- Engine over `moviesC1`. -/
def engineC1 : Engine :=
  ⟨moviesC1,
   ⟨[("aa", 3), ("action", 4), ("bb", 3), ("drama", 4)],
    moviesC1.map fun m => m.combinedFeatures⟩⟩

/-- Corpus whose row 1 has a feature text with zero recognized tokens relative to
the fitted vocabulary ("zz" and "mystery" are out of vocabulary), so its vector is
the zero vector; rows 0 and 2 have perfect-square norms. -/
def moviesC4 : List Movie :=
  [mkMovie "CC (1990)" (some "Horror"), mkMovie "ZZ (1990)" (some "Mystery"),
   mkMovie "DD (1991)" (some "Horror")]

/-- Engine over `moviesC4`. -/
def engineC4 : Engine :=
  ⟨moviesC4, ⟨[("cc", 3), ("horror", 4), ("dd", 3)], ["cc  horror", "dd  horror"]⟩⟩

/-- Two-row catalog paired with a vectorizer artifact whose fit corpus had a
different row count (one document) — the artifact-mismatch scenario of claim C9. -/
def moviesC9 : List Movie :=
  [mkMovie "EE (2000)" (some "War"), mkMovie "FF (2001)" (some "War")]

/-- Vectorizer artifact fit on a single-document corpus, mismatching `moviesC9`. -/
def vsC9 : VectorSpace :=
  ⟨[("ee", 3), ("war", 4), ("ff", 3)], ["ee  war ff  war single document"]⟩

/-- Engine pairing the mismatched artifacts of claim C9. -/
def engineC9 : Engine := ⟨moviesC9, vsC9⟩

/-! ## Bridge lemmas: the `divInt`-written arithmetic is the field arithmetic of `ℚ` -/

theorem qmul_eq (a b : ℚ) : qmul a b = a * b := by
  rw [qmul, Rat.divInt_eq_div]
  push_cast
  rw [← div_mul_div_comm, Rat.num_div_den, Rat.num_div_den]

theorem qadd_eq (a b : ℚ) : qadd a b = a + b := by
  have hda : ((a.den : ℚ)) ≠ 0 := Nat.cast_ne_zero.mpr a.den_nz
  have hdb : ((b.den : ℚ)) ≠ 0 := Nat.cast_ne_zero.mpr b.den_nz
  rw [qadd, Rat.divInt_eq_div]
  push_cast
  conv_rhs => rw [← Rat.num_div_den a, ← Rat.num_div_den b]
  rw [div_add_div _ _ hda hdb]
  congr 1
  ring

theorem qdiv_eq (a b : ℚ) : qdiv a b = a / b := by
  rcases eq_or_ne b 0 with rfl | hb
  · show Rat.divInt (a.num * (0 : ℚ).den) (a.den * (0 : ℚ).num) = a / 0
    norm_num
  · have hda : ((a.den : ℚ)) ≠ 0 := Nat.cast_ne_zero.mpr a.den_nz
    have hdb : ((b.den : ℚ)) ≠ 0 := Nat.cast_ne_zero.mpr b.den_nz
    have hbn : ((b.num : ℚ)) ≠ 0 := Int.cast_ne_zero.mpr (Rat.num_ne_zero.mpr hb)
    have ha : (a.num : ℚ) = a * a.den := (div_eq_iff hda).1 (Rat.num_div_den a)
    have hbnum : (b.num : ℚ) = b * b.den := (div_eq_iff hdb).1 (Rat.num_div_den b)
    rw [qdiv, Rat.divInt_eq_div]
    push_cast
    rw [div_eq_div_iff (by positivity) hb]
    rw [ha, hbnum]
    ring

/-! ## Stable descending sort: permutation, ordering, stability -/

theorem insertDesc_perm (p : ℕ × ℚ) (l : List (ℕ × ℚ)) :
    List.Perm (insertDesc p l) (p :: l) := by
  induction l with
  | nil => exact List.Perm.refl _
  | cons q rest ih =>
    by_cases h : p.2 < q.2
    · rw [insertDesc, if_pos h]
      exact (ih.cons q).trans (List.Perm.swap p q rest)
    · rw [insertDesc, if_neg h]

theorem sortDesc_perm (l : List (ℕ × ℚ)) : List.Perm (sortDesc l) l := by
  induction l with
  | nil => exact List.Perm.refl _
  | cons p rest ih =>
    exact (insertDesc_perm p (sortDesc rest)).trans (ih.cons p)

theorem mem_sortDesc {x : ℕ × ℚ} {l : List (ℕ × ℚ)} (h : x ∈ sortDesc l) : x ∈ l :=
  (sortDesc_perm l).subset h

theorem mem_insertDesc {x p : ℕ × ℚ} {l : List (ℕ × ℚ)} (h : x ∈ insertDesc p l) :
    x = p ∨ x ∈ l := by
  have := (insertDesc_perm p l).subset h
  simpa using this

theorem pairwise_insertDesc (p : ℕ × ℚ) (l : List (ℕ × ℚ))
    (hl : l.Pairwise RankOrder) (hp : ∀ x ∈ l, p.1 < x.1) :
    (insertDesc p l).Pairwise RankOrder := by
  induction l with
  | nil => simp [insertDesc]
  | cons q rest ih =>
    rw [List.pairwise_cons] at hl
    obtain ⟨hq, hrest⟩ := hl
    by_cases h : p.2 < q.2
    · rw [insertDesc, if_pos h]
      refine List.Pairwise.cons ?_ (ih hrest fun x hx => hp x (List.mem_cons_of_mem q hx))
      intro x hx
      rcases mem_insertDesc hx with hxp | hxl
      · rw [hxp]
        exact Or.inl h
      · exact hq x hxl
    · rw [insertDesc, if_neg h]
      have hqp : q.2 ≤ p.2 := not_lt.mp h
      refine List.Pairwise.cons ?_ (List.Pairwise.cons hq hrest)
      intro x hx
      rcases List.mem_cons.1 hx with hxq | hxl
      · rcases lt_or_eq_of_le hqp with hlt | heq
        · rw [hxq]
          exact Or.inl hlt
        · rw [hxq]
          exact Or.inr ⟨heq.symm, hp q (List.mem_cons_self q rest)⟩
      · have hxle : x.2 ≤ q.2 := by
          rcases hq x hxl with hlt | ⟨heq, _⟩
          · exact le_of_lt hlt
          · exact le_of_eq heq.symm
        rcases lt_or_eq_of_le (hxle.trans hqp) with hlt | heq
        · exact Or.inl hlt
        · exact Or.inr ⟨heq.symm, hp x (List.mem_cons_of_mem q hxl)⟩

theorem pairwise_sortDesc (l : List (ℕ × ℚ))
    (h : l.Pairwise fun a b => a.1 < b.1) : (sortDesc l).Pairwise RankOrder := by
  induction l with
  | nil => simp [sortDesc]
  | cons p rest ih =>
    rw [List.pairwise_cons] at h
    obtain ⟨hp, hrest⟩ := h
    rw [sortDesc]
    exact pairwise_insertDesc p (sortDesc rest) (ih hrest) fun x hx => hp x (mem_sortDesc hx)

theorem insertDesc_const (c : ℚ) (p : ℕ × ℚ) (l : List (ℕ × ℚ))
    (hp : p.2 = c) (hl : ∀ x ∈ l, x.2 = c) : insertDesc p l = p :: l := by
  cases l with
  | nil => rfl
  | cons q rest =>
    have : ¬ p.2 < q.2 := by
      rw [hp, hl q (List.mem_cons_self q rest)]
      exact lt_irrefl c
    rw [insertDesc, if_neg this]

theorem sortDesc_const (c : ℚ) (l : List (ℕ × ℚ)) (h : ∀ x ∈ l, x.2 = c) :
    sortDesc l = l := by
  induction l with
  | nil => rfl
  | cons p rest ih =>
    rw [sortDesc, ih fun x hx => h x (List.mem_cons_of_mem p hx),
      insertDesc_const c p rest (h p (List.mem_cons_self p rest))
        fun x hx => h x (List.mem_cons_of_mem p hx)]

/-! ## Facts about the ranked pair list of `get_recommendations` -/

theorem enum_pairwise_fst {α : Type} (l : List α) :
    l.enum.Pairwise fun a b => a.1 < b.1 := by
  rw [List.pairwise_iff_getElem]
  intro i j hi hj hij
  rw [List.getElem_enum, List.getElem_enum]
  exact hij

theorem getElem?_of_mem_enum {α : Type} {l : List α} {p : ℕ × α} (h : p ∈ l.enum) :
    l[p.1]? = some p.2 := by
  obtain ⟨n, hn, hget⟩ := List.getElem_of_mem h
  rw [List.getElem_enum] at hget
  rw [← hget]
  exact List.getElem?_eq_getElem (by simpa using hn)

theorem snd_mem_of_mem_enum {α : Type} {l : List α} {p : ℕ × α} (h : p ∈ l.enum) :
    p.2 ∈ l := by
  have : p.2 ∈ l.enum.map Prod.snd := List.mem_map_of_mem Prod.snd h
  rwa [List.enum_map_snd] at this

theorem rankedPairs_perm (e : Engine) (q : ℕ) :
    List.Perm (rankedPairs e q) (simScoresFor e q).enum :=
  sortDesc_perm _

theorem rankedPairs_pairwise (e : Engine) (q : ℕ) :
    (rankedPairs e q).Pairwise RankOrder :=
  pairwise_sortDesc _ (enum_pairwise_fst _)

theorem simScoresFor_length (e : Engine) (q : ℕ) :
    (simScoresFor e q).length = e.movies.length := by
  rw [simScoresFor, List.length_map, tfidf_matrix, List.length_map]

theorem rankedPairs_length (e : Engine) (q : ℕ) :
    (rankedPairs e q).length = e.movies.length := by
  rw [(rankedPairs_perm e q).length_eq, List.enum_length, simScoresFor_length]

theorem rankedPairs_score (e : Engine) (q : ℕ) (p : ℕ × ℚ) (h : p ∈ rankedPairs e q) :
    p.2 = cosine_similarity ((tfidf_matrix e).getD q []) ((tfidf_matrix e).getD p.1 []) := by
  have h1 : (simScoresFor e q)[p.1]? = some p.2 :=
    getElem?_of_mem_enum ((rankedPairs_perm e q).subset h)
  rw [simScoresFor, List.getElem?_map] at h1
  cases hm : (tfidf_matrix e)[p.1]? with
  | none =>
    rw [hm] at h1
    simp at h1
  | some row =>
    rw [hm] at h1
    simp only [Option.map_some'] at h1
    have hrow : (tfidf_matrix e).getD p.1 [] = row := by
      rw [List.getD_eq_getElem?_getD, hm, Option.getD_some]
    rw [hrow]
    exact (Option.some_injective _ h1).symm

/-! ## Zero-vector and unresolved-title behaviour -/

theorem qmul_zero_left (b : ℚ) : qmul 0 b = 0 := by rw [qmul_eq, zero_mul]

theorem qadd_zero_zero : qadd 0 0 = 0 := by rw [qadd_eq, add_zero]

theorem qdiv_zero_left (b : ℚ) : qdiv 0 b = 0 := by rw [qdiv_eq, zero_div]

theorem dot_zero_left (v w : List ℚ) (h : ∀ x ∈ v, x = 0) : dot v w = 0 := by
  induction v generalizing w with
  | nil => rfl
  | cons a v ih =>
    cases w with
    | nil => rfl
    | cons b w =>
      rw [dot, List.zipWith_cons_cons, List.foldr_cons]
      rw [h a (List.mem_cons_self a v), qmul_zero_left]
      show qadd 0 (dot v w) = 0
      rw [ih w fun x hx => h x (List.mem_cons_of_mem a hx), qadd_zero_zero]

theorem cosine_similarity_zero_left (v w : List ℚ) (h : ∀ x ∈ v, x = 0) :
    cosine_similarity v w = 0 := by
  rw [cosine_similarity, dot_zero_left v w h, qdiv_zero_left]

theorem empty_of_unresolved (e : Engine) (t : String) (n : ℕ)
    (h : indices e.movies (lowerStr t) = none) : get_recommendations e t n = [] := by
  simp [get_recommendations, recommendedIndices, h]

theorem get_recommendations_length (e : Engine) (t : String) (n q : ℕ)
    (h : indices e.movies (lowerStr t) = some q) :
    (get_recommendations e t n).length = min n (e.movies.length - 1) := by
  rw [get_recommendations, List.length_map, recommendedIndices, h]
  rw [List.length_map, List.length_take, List.length_drop, rankedPairs_length]

/-! ## The source title scanner equals the direct six-character-window recursion -/

theorem stripYears_eq_amended (l : List Char) : stripYears l = stripYearsAmended l := by
  induction l using stripYearsAmended.induct with
  | case1 o c1 c2 c3 c4 cl rest h ih =>
    cases rest with
    | nil => simp [stripYears, stripYearsAt, stripYearsAmended, h]
    | cons d rest3 => simpa [stripYears, stripYearsAt, stripYearsAmended, h] using ih
  | case2 o c1 c2 c3 c4 cl rest h ih =>
    cases rest with
    | nil => simp [stripYears, stripYearsAt, stripYearsAmended, h]
    | cons d rest3 => simpa [stripYears, stripYearsAt, stripYearsAmended, h] using ih
  | case3 c rest hshape ih =>
    rcases rest with _ | ⟨a1, _ | ⟨a2, _ | ⟨a3, _ | ⟨a4, _ | ⟨a5, rest6⟩⟩⟩⟩⟩
    · simp [stripYears, stripYearsAt, stripYearsAmended]
    · simp [stripYears, stripYearsAt, stripYearsAmended]
    · simp [stripYears, stripYearsAt, stripYearsAmended]
    · simp [stripYears, stripYearsAt, stripYearsAmended]
    · simp [stripYears, stripYearsAt, stripYearsAmended]
    · exact (hshape a1 a2 a3 a4 a5 rest6 rfl).elim
  | case4 => simp [stripYears, stripYearsAmended]

/-! ## Claim theorems -/

theorem rankOrder_antisymm (a b : ℕ × ℚ) (hab : RankOrder a b) (hba : RankOrder b a) :
    a = b := by
  rcases hab with h1 | ⟨h1, h1'⟩ <;> rcases hba with h2 | ⟨h2, h2'⟩
  · exact absurd h2 (lt_asymm h1)
  · rw [h2] at h1
    exact absurd h1 (lt_irrefl _)
  · rw [h1] at h2
    exact absurd h2 (lt_irrefl _)
  · exact absurd (h1'.trans h2') (lt_irrefl _)

/-- C1 (code bug): in `engineC1`, rows 0 and 1 carry identical feature text, so
both score cosine similarity 1.0 against the query "AA (2000)", which resolves to
row id 1.  The stable descending sort places row 0 first, the code drops only that
top-scored entry (`sim_scores[1 : n + 1]`), and the query's own row id 1 is
returned inside its own recommendation list — contradicting the claim that the
query's own row id never appears. -/
theorem C1_self_exclusion_failing :
    indices engineC1.movies (lowerStr "AA (2000)") = some 1 ∧
      (engineC1.movies.getD 0 default).combinedFeatures =
        (engineC1.movies.getD 1 default).combinedFeatures ∧
      recommendedIndices engineC1 "AA (2000)" 2 = [1, 2] := by decide

/-- C2: the ranking step sorts the (row id, score) pairs of `enumerate` descending
by score, preserving ascending row-id order among equal scores (stable sort), and
this arrangement is the unique one with those properties, so the ranked output is
determined by the scores and row ids. -/
theorem C2_ranking_sorted_stable (e : Engine) (q : ℕ) :
    List.Perm (rankedPairs e q) (simScoresFor e q).enum ∧
      (rankedPairs e q).Pairwise RankOrder ∧
      ∀ l : List (ℕ × ℚ), List.Perm l (simScoresFor e q).enum →
        l.Pairwise RankOrder → l = rankedPairs e q := by
  refine ⟨rankedPairs_perm e q, rankedPairs_pairwise e q, ?_⟩
  intro l hp hpw
  haveI : IsAntisymm (ℕ × ℚ) RankOrder := ⟨rankOrder_antisymm⟩
  exact List.eq_of_perm_of_sorted (hp.trans (rankedPairs_perm e q).symm) hpw
    (rankedPairs_pairwise e q)

/-- C3: for a resolved seed title the result has at most corpusSize - 1 entries,
and exactly corpusSize - 1 of them (without an error) whenever n exceeds
corpusSize - 1. -/
theorem C3_n_clamping (e : Engine) (t : String) (n q : ℕ)
    (h : indices e.movies (lowerStr t) = some q) :
    (get_recommendations e t n).length ≤ e.movies.length - 1 ∧
      (e.movies.length - 1 < n →
        (get_recommendations e t n).length = e.movies.length - 1) := by
  rw [get_recommendations_length e t n q h]
  omega

/-- Witness for C3: "Toy Story (1995)" resolves in `engineTS` (3 movies) and a
request for 99 recommendations returns exactly 2. -/
theorem C3_n_clamping_witness :
    indices engineTS.movies (lowerStr "Toy Story (1995)") = some 0 ∧
      ((get_recommendations engineTS "Toy Story (1995)" 99).length ≤
          engineTS.movies.length - 1 ∧
        (engineTS.movies.length - 1 < 99 →
          (get_recommendations engineTS "Toy Story (1995)" 99).length =
            engineTS.movies.length - 1)) :=
  ⟨by decide, C3_n_clamping engineTS "Toy Story (1995)" 99 0 (by decide)⟩

/-- C4 counterexample: in `engineC4` the seed "ZZ (1990)" (row 1) transforms to the
zero vector, yet the result is neither the top-2 rows of corpus order (rows 0, 1)
nor the empty list: the drop-first step skips row 0 and the query row itself is
returned, so the claimed graceful-degradation policy does not hold as stated. -/
theorem C4_policy_counterexample :
    (∀ x ∈ (tfidf_matrix engineC4).getD 1 [], x = 0) ∧
      get_recommendations engineC4 "ZZ (1990)" 2 =
        [("ZZ (1990)", "Mystery"), ("DD (1991)", "Horror")] ∧
      get_recommendations engineC4 "ZZ (1990)" 2 ≠
        [("CC (1990)", "Horror"), ("ZZ (1990)", "Mystery")] ∧
      get_recommendations engineC4 "ZZ (1990)" 2 ≠ [] := by decide

/-- C4 amended: a degenerate query (zero vector) raises no error and scores 0
against every row, and the result consists of rows 1 through n of corpus order —
corpus order with the first corpus row dropped by the skip-first step — which may
include the query row itself. -/
theorem C4_degenerate_query_amended (e : Engine) (t : String) (n q : ℕ)
    (hq : indices e.movies (lowerStr t) = some q)
    (hz : ∀ x ∈ (tfidf_matrix e).getD q [], x = 0) :
    (∀ s ∈ simScoresFor e q, s = 0) ∧
      recommendedIndices e t n = ((List.range e.movies.length).drop 1).take n := by
  have hscore : ∀ s ∈ simScoresFor e q, s = 0 := by
    intro s hs
    rw [simScoresFor] at hs
    obtain ⟨row, hrow, rfl⟩ := List.mem_map.1 hs
    exact cosine_similarity_zero_left _ _ hz
  refine ⟨hscore, ?_⟩
  simp only [recommendedIndices, hq]
  rw [rankedPairs, sortDesc_const 0 _ fun x hx => hscore x.2 (snd_mem_of_mem_enum hx)]
  rw [List.map_take, List.map_drop, List.enum_map_fst, simScoresFor_length]

/-- Witness for the amended C4, at `engineC4` with seed "ZZ (1990)" and n = 2. -/
theorem C4_degenerate_query_amended_witness :
    indices engineC4.movies (lowerStr "ZZ (1990)") = some 1 ∧
      (∀ x ∈ (tfidf_matrix engineC4).getD 1 [], x = 0) ∧
      ((∀ s ∈ simScoresFor engineC4 1, s = 0) ∧
        recommendedIndices engineC4 "ZZ (1990)" 2 =
          ((List.range engineC4.movies.length).drop 1).take 2) :=
  ⟨by decide, by decide,
    C4_degenerate_query_amended engineC4 "ZZ (1990)" 2 1 (by decide) (by decide)⟩

/-- C5: an input whose lowercased form is not a key of the title index yields the
empty result, with no exception (the function is total). -/
theorem C5_unknown_title_empty (e : Engine) (t : String) (n : ℕ)
    (h : indices e.movies (lowerStr t) = none) : get_recommendations e t n = [] :=
  empty_of_unresolved e t n h

/-- Witness for C5 at `engineTS` with the spec's unknown-title probe. -/
theorem C5_unknown_title_empty_witness :
    indices engineTS.movies (lowerStr "this title does not exist") = none ∧
      get_recommendations engineTS "this title does not exist" 5 = [] :=
  ⟨by decide, C5_unknown_title_empty engineTS "this title does not exist" 5 (by decide)⟩

/-- C6: along the returned sequence, the cosine similarity of the query row with
each earlier entry's row is at least that with each later entry's row. -/
theorem C6_rank_monotonicity (e : Engine) (t : String) (n q : ℕ)
    (h : indices e.movies (lowerStr t) = some q) :
    (recommendedIndices e t n).Chain' fun i j =>
      cosine_similarity ((tfidf_matrix e).getD q []) ((tfidf_matrix e).getD j []) ≤
        cosine_similarity ((tfidf_matrix e).getD q []) ((tfidf_matrix e).getD i []) := by
  simp only [recommendedIndices, h]
  rw [List.chain'_map]
  apply List.Pairwise.chain'
  have hpw : (rankedPairs e q).Pairwise fun a b =>
      cosine_similarity ((tfidf_matrix e).getD q []) ((tfidf_matrix e).getD b.1 []) ≤
        cosine_similarity ((tfidf_matrix e).getD q []) ((tfidf_matrix e).getD a.1 []) := by
    refine (rankedPairs_pairwise e q).imp_of_mem ?_
    intro a b ha hb hab
    rw [← rankedPairs_score e q a ha, ← rankedPairs_score e q b hb]
    rcases hab with hlt | ⟨heq, _⟩
    · exact le_of_lt hlt
    · exact le_of_eq heq.symm
  exact List.Pairwise.sublist ((List.take_sublist _ _).trans (List.drop_sublist _ _)) hpw

/-- Witness for C6 at `engineC1` with seed "AA (1999)" and n = 2. -/
theorem C6_rank_monotonicity_witness :
    indices engineC1.movies (lowerStr "AA (1999)") = some 0 ∧
      (recommendedIndices engineC1 "AA (1999)" 2).Chain' (fun i j =>
        cosine_similarity ((tfidf_matrix engineC1).getD 0 [])
            ((tfidf_matrix engineC1).getD j []) ≤
          cosine_similarity ((tfidf_matrix engineC1).getD 0 [])
            ((tfidf_matrix engineC1).getD i [])) :=
  ⟨by decide, C6_rank_monotonicity engineC1 "AA (1999)" 2 0 (by decide)⟩

/-- C7: two title arguments with the same lowercasing produce identical ordered
output, for every engine and every n. -/
theorem C7_case_insensitive (e : Engine) (t1 t2 : String) (n : ℕ)
    (h : lowerStr t1 = lowerStr t2) :
    get_recommendations e t1 n = get_recommendations e t2 n := by
  simp only [get_recommendations, recommendedIndices, h]

/-- Witness for C7: the spec's own pair of case variants, at `engineTS`. -/
theorem C7_case_insensitive_witness :
    lowerStr "TOY STORY (1995)" = lowerStr "toy story (1995)" ∧
      get_recommendations engineTS "TOY STORY (1995)" 5 =
        get_recommendations engineTS "toy story (1995)" 5 :=
  ⟨by decide, C7_case_insensitive engineTS "TOY STORY (1995)" "toy story (1995)" 5 (by decide)⟩

/-- C8 counterexample: on the title "AA (1999) BB (2000)" the source removes both
parenthesized 4-digit groups, while the claimed construction (strip only a
trailing year token) keeps the inner "(1999)", so the two feature texts differ. -/
theorem C8_trailing_strip_counterexample :
    combined_features "AA (1999) BB (2000)" (some "Drama") ≠
      featureTextClaimC8 "AA (1999) BB (2000)" (some "Drama") := by decide

/-- C8 amended: the feature text removes every parenthesized 4-digit token from
the title (anywhere, not only trailing), lowercases the result, replaces the
genre delimiter with spaces (null genres as the empty string, never an error),
and joins the two parts with a single space character. -/
theorem C8_feature_text_amended (t : String) (g : Option String) :
    combined_features t g = featureTextAmended t g := by
  rw [combined_features, featureTextAmended, clean_title, stripYears_eq_amended]

/-- C9 counterexample: `engineC9` pairs a catalog of 2 rows with a vectorizer
artifact fit on a 1-document corpus; startup raises nothing and the engine serves
a normal, nonempty ranking instead of refusing. -/
theorem C9_mismatch_still_serves :
    vsC9.fittedCorpus.length ≠ engineC9.movies.length ∧
      get_recommendations engineC9 "EE (2000)" 1 = [("FF (2001)", "War")] ∧
      get_recommendations engineC9 "EE (2000)" 1 ≠ [] := by decide

/-- C9 amended: startup performs no artifact-consistency check at all: serving
behaviour is entirely independent of the corpus the vectorizer was fit against,
and the corpus matrix is rebuilt from the loaded catalog, so its row count always
equals the catalog row count — misaligned row counts cannot even arise, and no
refusal path exists. -/
theorem C9_no_startup_guard_amended (movies : List Movie) (vocab : List (String × ℚ))
    (fc1 fc2 : List String) (t : String) (n : ℕ) :
    get_recommendations ⟨movies, ⟨vocab, fc1⟩⟩ t n =
        get_recommendations ⟨movies, ⟨vocab, fc2⟩⟩ t n ∧
      (tfidf_matrix ⟨movies, ⟨vocab, fc1⟩⟩).length = movies.length :=
  ⟨rfl, by rw [tfidf_matrix, List.length_map]⟩

/-- C10: title resolution succeeds exactly when the whole lowercased input equals
some raw catalog title lowercased (year suffix included); an input matching no
full title — in particular a mere substring or year-stripped form — yields the
empty result. -/
theorem C10_full_lowercased_title_keys (e : Engine) (t : String) (n : ℕ) :
    ((indices e.movies (lowerStr t)).isSome = true ↔
      ∃ m ∈ e.movies, lowerStr m.title = lowerStr t) ∧
      ((∀ m ∈ e.movies, lowerStr m.title ≠ lowerStr t) →
        get_recommendations e t n = []) := by
  constructor
  · rw [indices, Option.isSome_map', List.find?_isSome]
    constructor
    · rintro ⟨p, hp, hpred⟩
      exact ⟨p.2, snd_mem_of_mem_enum hp, by simpa using hpred⟩
    · rintro ⟨m, hm, hkey⟩
      have hmem : m ∈ e.movies.enum.map Prod.snd := by rwa [List.enum_map_snd]
      obtain ⟨p, hp, hsnd⟩ := List.mem_map.1 hmem
      exact ⟨p, hp, by simp [hsnd, hkey]⟩
  · intro hnone
    apply empty_of_unresolved
    rw [indices, Option.map_eq_none', List.find?_eq_none]
    intro p hp
    simp only [beq_iff_eq]
    exact hnone p.2 (snd_mem_of_mem_enum hp)

/-- Witness for C10: "toy story" is a year-stripped substring of the catalog title
"Toy Story (1995)" in `engineTS` but matches no full lowercased title, so the
result is empty. -/
theorem C10_full_lowercased_title_keys_witness :
    (∀ m ∈ engineTS.movies, lowerStr m.title ≠ lowerStr "toy story") ∧
      get_recommendations engineTS "toy story" 5 = [] :=
  ⟨by decide, (C10_full_lowercased_title_keys engineTS "toy story" 5).2 (by decide)⟩
